import Mathlib

/-!
Verification of the public-subnet classifier of the evercharge-sftp
Pulumi program.

The repository has two variants of the program:

* `src/unnamed/part_000` — the variant with route-table inspection.  Its
  `publicSubnets` output enumerates the subnets of the default VPC and,
  for each subnet, fetches the route table explicitly associated with it
  (filter `association.subnet-id`); on success the subnet is public iff
  some route's `gatewayId` starts with `"igw-"`.  If the lookup throws an
  `Error` whose `message` contains `"query returned no results"`, it
  instead fetches the VPC's main route table (filters `vpc-id` and
  `association.main = true`) and applies the same check; any other thrown
  value is re-thrown, aborting the whole `apply` callback.  The EC2
  instance's `subnetId` is `publicSubnets.apply(subnets => subnets[0])`.

* `src/index.ts` — a variant whose `publicSubnets` is merely
  `getSubnets` on the VPC, with no route-table inspection at all; the
  instance's `subnetId` is `subnets.ids[0]`.

The embedding below models the cloud-inventory snapshot the program
queries (the subnet enumeration and the results of the two route-table
lookups) and translates the classification loop from the source.
-/

/-- A route of a route table: only the optional gateway identifier is
consulted by the program (`route.gatewayId?.startsWith("igw-")`). -/
structure Route where
  gatewayId : Option String
deriving Repr, DecidableEq

/-- A route table as returned by `aws.ec2.getRouteTable`: the program
only reads its `routes` list. -/
structure RouteTable where
  routes : List Route
deriving Repr, DecidableEq

/-- A JavaScript thrown value, as discriminated by the `catch` block of
the source: either an `instanceof Error` carrying a `message` string, or
any other thrown value (a string, a number, a plain object ...), whose
textual content we keep as `tag` so that we can speak about non-`Error`
values whose text contains the not-found marker. -/
inductive Thrown where
  | errorObj (message : String)
  | nonError (tag : String)
deriving Repr, DecidableEq

/-- Outcome of one `aws.ec2.getRouteTable` call: the resolved table, or
the thrown value when the promise rejects. -/
inductive LookupResult where
  | ok (table : RouteTable)
  | err (e : Thrown)
deriving Repr, DecidableEq

/-- A read-only snapshot of the cloud inventory, covering exactly the
queries the classifier issues for one VPC: the subnet enumeration
(`aws.ec2.getSubnets`, filter `vpc-id`), the explicit route-table lookup
per subnet identifier (filter `association.subnet-id`), and the main
route-table lookup (filters `vpc-id`, `association.main = true`).  The
snapshot is fixed for the whole invocation, matching the spec's
"read-only snapshots fetched once during provisioning". -/
structure Inventory where
  subnetIds : List String
  explicitLookup : String → LookupResult
  mainLookup : LookupResult

instance : DecidableEq (Except Thrown (List String)) := fun a b =>
  match a, b with
  | .ok x, .ok y => if h : x = y then .isTrue (by rw [h]) else .isFalse (by simp [h])
  | .ok _, .error _ => .isFalse (by simp)
  | .error _, .ok _ => .isFalse (by simp)
  | .error x, .error y => if h : x = y then .isTrue (by rw [h]) else .isFalse (by simp [h])

instance : DecidableEq (Except Thrown Bool) := fun a b =>
  match a, b with
  | .ok x, .ok y => if h : x = y then .isTrue (by rw [h]) else .isFalse (by simp [h])
  | .ok _, .error _ => .isFalse (by simp)
  | .error _, .ok _ => .isFalse (by simp)
  | .error x, .error y => if h : x = y then .isTrue (by rw [h]) else .isFalse (by simp [h])

instance : DecidableEq (Except Thrown (Option String)) := fun a b =>
  match a, b with
  | .ok x, .ok y => if h : x = y then .isTrue (by rw [h]) else .isFalse (by simp [h])
  | .ok _, .error _ => .isFalse (by simp)
  | .error _, .ok _ => .isFalse (by simp)
  | .error x, .error y => if h : x = y then .isTrue (by rw [h]) else .isFalse (by simp [h])

/-- `List.isPrefixOf`-based model of JavaScript `String.prototype.startsWith`. -/
def strStartsWith (s pre : String) : Bool :=
  List.isPrefixOf pre.toList s.toList

/-- Search for `pat` as a contiguous run inside a character list. -/
def substrSearch (pat : List Char) : List Char → Bool
  | [] => pat.isEmpty
  | c :: rest => List.isPrefixOf pat (c :: rest) || substrSearch pat rest

/-- Model of JavaScript `String.prototype.includes`. -/
def containsSubstring (s pat : String) : Bool :=
  substrSearch pat.toList s.toList

/-- `route.gatewayId?.startsWith("igw-")`: with no gateway identifier the
optional chain yields `undefined`, which is falsy. -/
def isIgwRoute (r : Route) : Bool :=
  match r.gatewayId with
  | some g => strStartsWith g "igw-"
  | none => false

/-- `routeTable.routes.some(route => route.gatewayId?.startsWith("igw-"))`. -/
def hasIgwRoute (t : RouteTable) : Bool :=
  t.routes.any isIgwRoute

/-- The fixed marker string the `catch` block searches for in the error
message. -/
def notFoundMarker : String := "query returned no results"

/-- The condition of the `catch` block:
`error instanceof Error && error.message.includes("query returned no results")`.
A non-`Error` thrown value never satisfies it, whatever its text. -/
def isNotFoundError : Thrown → Bool
  | .errorObj msg => containsSubstring msg notFoundMarker
  | .nonError _ => false

/-- One iteration of the classification loop of `publicSubnets` in
`src/unnamed/part_000`: try the explicit route-table lookup; on success
report `hasIgwRoute`; on a thrown value satisfying the not-found test,
fall back to the main route-table lookup and apply the same check (a
failure of that lookup propagates — the fallback is not itself wrapped in
a `try`); any other thrown value is re-thrown. -/
def classifySubnet (inv : Inventory) (subnetId : String) : Except Thrown Bool :=
  match inv.explicitLookup subnetId with
  | .ok routeTable => .ok (hasIgwRoute routeTable)
  | .err e =>
    if isNotFoundError e then
      match inv.mainLookup with
      | .ok mainRouteTable => .ok (hasIgwRoute mainRouteTable)
      | .err e2 => .error e2
    else
      .error e

/-- The `for (const subnetId of subnets.ids)` loop, with the
`publicSubnetIds` accumulator; a thrown value aborts the whole loop and
discards the accumulator, as the rejected promise carries no list. -/
def publicSubnetsLoop (inv : Inventory) :
    List String → List String → Except Thrown (List String)
  | [], publicSubnetIds => .ok publicSubnetIds
  | subnetId :: rest, publicSubnetIds =>
    match classifySubnet inv subnetId with
    | .ok isPublic =>
      publicSubnetsLoop inv rest
        (if isPublic then publicSubnetIds ++ [subnetId] else publicSubnetIds)
    | .error e => .error e

/-- The `publicSubnets` output of `src/unnamed/part_000` (the spec's
`classifyPublicSubnets`), as a function of the inventory snapshot. -/
def publicSubnets (inv : Inventory) : Except Thrown (List String) :=
  publicSubnetsLoop inv inv.subnetIds []

/-- Whether one subnet's classification succeeds with `true` (the value
pushed to `publicSubnetIds` for it). -/
def isPublicSubnet (inv : Inventory) (subnetId : String) : Bool :=
  match classifySubnet inv subnetId with
  | .ok b => b
  | .error _ => false

/-- The effective route table of the spec's data model: the explicitly
associated table when the lookup succeeds, else — when the lookup fails
with the not-found condition — the VPC's main table when that lookup
succeeds; `none` when no table is obtained. -/
def effectiveRouteTable (inv : Inventory) (subnetId : String) : Option RouteTable :=
  match inv.explicitLookup subnetId with
  | .ok t => some t
  | .err e =>
    if isNotFoundError e then
      match inv.mainLookup with
      | .ok t => some t
      | .err _ => none
    else none

/-- The EC2 instance's `subnetId` argument in `src/unnamed/part_000`:
`publicSubnets.apply(subnets => subnets[0])`; `subnets[0]` is `undefined`
(`none`) on an empty array, and a rejected `publicSubnets` output fails
the deployment (the `error` branch). -/
def sftpInstanceSubnetId (inv : Inventory) : Except Thrown (Option String) :=
  Except.map List.head? (publicSubnets inv)

/-- The `publicSubnets` constant of the `src/index.ts` variant: just the
raw subnet enumeration of the VPC, with no route-table inspection. -/
def publicSubnetsIndexTs (inv : Inventory) : List String :=
  inv.subnetIds

/-- The EC2 instance's `subnetId` argument in `src/index.ts`:
`publicSubnets.apply(subnets => subnets.ids[0])`. -/
def sftpInstanceSubnetIdIndexTs (inv : Inventory) : Option String :=
  (publicSubnetsIndexTs inv).head?

/-- One route-table lookup issued against the inventory collaborator. -/
inductive LookupCall where
  | explicitCall (subnetId : String)
  | mainCall
deriving Repr, DecidableEq

/-- `classifySubnet` instrumented with the list of lookup calls the
iteration issues, in order. -/
def classifySubnetTraced (inv : Inventory) (subnetId : String) :
    Except Thrown Bool × List LookupCall :=
  match inv.explicitLookup subnetId with
  | .ok routeTable => (.ok (hasIgwRoute routeTable), [.explicitCall subnetId])
  | .err e =>
    if isNotFoundError e then
      match inv.mainLookup with
      | .ok mainRouteTable =>
          (.ok (hasIgwRoute mainRouteTable), [.explicitCall subnetId, .mainCall])
      | .err e2 => (.error e2, [.explicitCall subnetId, .mainCall])
    else
      (.error e, [.explicitCall subnetId])

/-- The classification loop instrumented with the lookup calls issued. -/
def publicSubnetsTracedLoop (inv : Inventory) :
    List String → List String → List LookupCall →
      Except Thrown (List String) × List LookupCall
  | [], publicSubnetIds, calls => (.ok publicSubnetIds, calls)
  | subnetId :: rest, publicSubnetIds, calls =>
    match classifySubnetTraced inv subnetId with
    | (.ok isPublic, cs) =>
      publicSubnetsTracedLoop inv rest
        (if isPublic then publicSubnetIds ++ [subnetId] else publicSubnetIds)
        (calls ++ cs)
    | (.error e, cs) => (.error e, calls ++ cs)

/-- `publicSubnets` together with the route-table lookups it issues. -/
def publicSubnetsTraced (inv : Inventory) :
    Except Thrown (List String) × List LookupCall :=
  publicSubnetsTracedLoop inv inv.subnetIds [] []

/-! Concrete sample inventories used to exercise the definitions. -/

/-- A route table with one internet-gateway route. -/
def igwTable : RouteTable := ⟨[⟨some "igw-0a1b2c3d"⟩]⟩

/-- A route table with no internet-gateway route: one local route with no
gateway identifier and one NAT-gateway route. -/
def natTable : RouteTable := ⟨[⟨none⟩, ⟨some "nat-0e4f5a6b"⟩]⟩

/-- The rejection the provider produces when a filtered `getRouteTable`
matches nothing; its message contains the marker the source tests for. -/
def notFoundErr : Thrown :=
  .errorObj "invoking aws:ec2/getRouteTable:getRouteTable: query returned no results"

/-- A fatal lookup failure: an `Error` whose message lacks the marker. -/
def permErr : Thrown := .errorObj "UnauthorizedOperation: not authorized to perform this action"

/-- The spec's example scenario extended with a private subnet:
`subnet-a` has an explicit table routing to an internet gateway,
`subnet-b` has no explicit association and falls back to the main table
(which routes to an internet gateway), `subnet-c` has an explicit table
with no internet-gateway route. -/
def sampleInv : Inventory where
  subnetIds := ["subnet-a", "subnet-b", "subnet-c"]
  explicitLookup := fun s =>
    if s = "subnet-a" then .ok igwTable
    else if s = "subnet-b" then .err notFoundErr
    else .ok natTable
  mainLookup := .ok igwTable

/-- Same snapshot as `sampleInv` on everything the classifier consults,
but answering differently for subnet identifiers outside the
enumeration. -/
def sampleInvPrimed : Inventory where
  subnetIds := ["subnet-a", "subnet-b", "subnet-c"]
  explicitLookup := fun s =>
    if s = "subnet-a" then .ok igwTable
    else if s = "subnet-b" then .err notFoundErr
    else if s = "subnet-c" then .ok natTable
    else .err permErr
  mainLookup := .ok igwTable

/-- An inventory whose second subnet's explicit lookup fails fatally. -/
def fatalInv : Inventory where
  subnetIds := ["subnet-a", "subnet-x"]
  explicitLookup := fun s =>
    if s = "subnet-a" then .ok igwTable else .err permErr
  mainLookup := .ok igwTable

/-- An inventory whose first subnet's explicit lookup throws a
non-`Error` value whose text contains the not-found marker, and whose
main-table lookup itself fails with a not-found rejection. -/
def hostileInv : Inventory where
  subnetIds := ["subnet-a", "subnet-b"]
  explicitLookup := fun s =>
    if s = "subnet-a" then .err (.nonError "query returned no results")
    else .err notFoundErr
  mainLookup := .err notFoundErr

/-- An inventory with no subnets at all. -/
def emptyInv : Inventory where
  subnetIds := []
  explicitLookup := fun _ => .err notFoundErr
  mainLookup := .ok igwTable

/-- An inventory whose first enumerated subnet is private and whose
second is public: the two source variants place the instance in
different subnets here. -/
def divergingInv : Inventory where
  subnetIds := ["subnet-priv", "subnet-pub"]
  explicitLookup := fun s =>
    if s = "subnet-pub" then .ok igwTable else .ok natTable
  mainLookup := .ok natTable

/-! Helper lemmas about the classification loop. -/

theorem isPublicSubnet_eq_of_ok (inv : Inventory) (s : String) (b : Bool)
    (h : classifySubnet inv s = .ok b) : isPublicSubnet inv s = b := by
  simp [isPublicSubnet, h]

theorem publicSubnetsLoop_ok (inv : Inventory) (ids : List String) :
    ∀ (acc l : List String), publicSubnetsLoop inv ids acc = .ok l →
      l = acc ++ ids.filter (isPublicSubnet inv) ∧
        ∀ s ∈ ids, ∃ b, classifySubnet inv s = .ok b := by
  induction ids with
  | nil =>
    intro acc l h
    simp only [publicSubnetsLoop, Except.ok.injEq] at h
    simp [h]
  | cons s rest ih =>
    intro acc l h
    cases hc : classifySubnet inv s with
    | ok b =>
      simp only [publicSubnetsLoop, hc] at h
      obtain ⟨h1, h2⟩ := ih _ _ h
      refine ⟨?_, ?_⟩
      · rw [h1, List.filter_cons, isPublicSubnet_eq_of_ok inv s b hc]
        cases b <;> simp
      · intro x hx
        rcases List.mem_cons.mp hx with rfl | hx
        · exact ⟨b, hc⟩
        · exact h2 x hx
    | error e =>
      simp only [publicSubnetsLoop, hc] at h
      exact absurd h (by simp)

theorem publicSubnetsLoop_error (inv : Inventory) (pre : List String) :
    ∀ (post acc : List String) (s : String) (e : Thrown),
      (∀ x ∈ pre, ∃ b, classifySubnet inv x = .ok b) →
      classifySubnet inv s = .error e →
      publicSubnetsLoop inv (pre ++ s :: post) acc = .error e := by
  induction pre with
  | nil =>
    intro post acc s e _ hs
    simp only [List.nil_append, publicSubnetsLoop, hs]
  | cons x pre ih =>
    intro post acc s e hpre hs
    obtain ⟨b, hb⟩ := hpre x (List.mem_cons_self x pre)
    simp only [List.cons_append, publicSubnetsLoop, hb]
    exact ih post _ s e (fun y hy => hpre y (List.mem_cons_of_mem x hy)) hs

theorem classifySubnet_congr (inv1 inv2 : Inventory) (s : String)
    (hex : inv1.explicitLookup s = inv2.explicitLookup s)
    (hmain : inv1.mainLookup = inv2.mainLookup) :
    classifySubnet inv1 s = classifySubnet inv2 s := by
  unfold classifySubnet
  rw [hex, hmain]

theorem publicSubnetsLoop_congr (inv1 inv2 : Inventory) (ids : List String) :
    ∀ acc, (∀ s ∈ ids, classifySubnet inv1 s = classifySubnet inv2 s) →
      publicSubnetsLoop inv1 ids acc = publicSubnetsLoop inv2 ids acc := by
  induction ids with
  | nil => intro acc _; rfl
  | cons s rest ih =>
    intro acc h
    have hs := h s (List.mem_cons_self s rest)
    cases hc : classifySubnet inv1 s with
    | ok b =>
      have hs2 : classifySubnet inv2 s = .ok b := by rw [← hs]; exact hc
      simp only [publicSubnetsLoop, hc, hs2]
      exact ih _ (fun y hy => h y (List.mem_cons_of_mem s hy))
    | error e =>
      have hs2 : classifySubnet inv2 s = .error e := by rw [← hs]; exact hc
      simp only [publicSubnetsLoop, hc, hs2]

theorem classifySubnet_ok_true_iff (inv : Inventory) (s : String) :
    classifySubnet inv s = .ok true ↔
      ∃ t, effectiveRouteTable inv s = some t ∧ hasIgwRoute t = true := by
  unfold classifySubnet effectiveRouteTable
  cases inv.explicitLookup s with
  | ok t => simp
  | err e =>
    cases hnf : isNotFoundError e with
    | false => simp [hnf]
    | true =>
      cases inv.mainLookup with
      | ok t => simp [hnf]
      | err e2 => simp [hnf]

theorem classifySubnetTraced_fst (inv : Inventory) (s : String) :
    (classifySubnetTraced inv s).1 = classifySubnet inv s := by
  unfold classifySubnetTraced classifySubnet
  cases inv.explicitLookup s with
  | ok t => rfl
  | err e =>
    cases hnf : isNotFoundError e with
    | false => simp [hnf]
    | true => cases inv.mainLookup <;> simp [hnf]

theorem publicSubnetsTracedLoop_fst (inv : Inventory) (ids : List String) :
    ∀ acc calls, (publicSubnetsTracedLoop inv ids acc calls).1 =
      publicSubnetsLoop inv ids acc := by
  induction ids with
  | nil => intro acc calls; rfl
  | cons s rest ih =>
    intro acc calls
    have h := classifySubnetTraced_fst inv s
    cases hct : classifySubnetTraced inv s with
    | mk r cs =>
      rw [hct] at h
      cases r with
      | ok b =>
        simp only [publicSubnetsTracedLoop, publicSubnetsLoop, hct, ← h]
        exact ih _ _
      | error e =>
        simp only [publicSubnetsTracedLoop, publicSubnetsLoop, hct, ← h]

theorem publicSubnetsTraced_fst (inv : Inventory) :
    (publicSubnetsTraced inv).1 = publicSubnets inv :=
  publicSubnetsTracedLoop_fst inv inv.subnetIds [] []

theorem isPublicSubnet_true_iff (inv : Inventory) (s : String) :
    isPublicSubnet inv s = true ↔ classifySubnet inv s = .ok true := by
  unfold isPublicSubnet
  cases hc : classifySubnet inv s with
  | ok b => cases b <;> simp
  | error e => simp

/-! Theorems for the claims. -/

/-- Claim C1: when classification succeeds, a subnet identifier appears
in the result of `publicSubnets` iff it is one of the enumerated subnets
and its effective route table (the explicitly associated table when one
exists, else the VPC's main table) has at least one route whose gateway
identifier starts with `"igw-"`; in particular a subnet whose explicit
route table has only non-internet-gateway routes (or routes with no
gateway at all) is excluded. -/
theorem publicSubnets_mem_iff_effective_igw (inv : Inventory) (l : List String)
    (hok : publicSubnets inv = .ok l) (s : String) :
    (s ∈ l ↔ s ∈ inv.subnetIds ∧
      ∃ t, effectiveRouteTable inv s = some t ∧ hasIgwRoute t = true) ∧
    (∀ t, inv.explicitLookup s = .ok t → hasIgwRoute t = false → s ∉ l) := by
  obtain ⟨h1, _⟩ := publicSubnetsLoop_ok inv inv.subnetIds [] l hok
  rw [List.nil_append] at h1
  have hiff : s ∈ l ↔ s ∈ inv.subnetIds ∧
      ∃ t, effectiveRouteTable inv s = some t ∧ hasIgwRoute t = true := by
    rw [h1, List.mem_filter, isPublicSubnet_true_iff, classifySubnet_ok_true_iff]
  refine ⟨hiff, ?_⟩
  intro t hext hfalse hmem
  obtain ⟨_, t2, het, hig⟩ := hiff.mp hmem
  unfold effectiveRouteTable at het
  rw [hext] at het
  simp only [Option.some.injEq] at het
  rw [← het] at hig
  rw [hfalse] at hig
  exact Bool.noConfusion hig

theorem publicSubnets_mem_iff_effective_igw_witness :
    (("subnet-c" ∈ (["subnet-a", "subnet-b"] : List String)) ↔
      "subnet-c" ∈ sampleInv.subnetIds ∧
        ∃ t, effectiveRouteTable sampleInv "subnet-c" = some t ∧ hasIgwRoute t = true) ∧
    (∀ t, sampleInv.explicitLookup "subnet-c" = .ok t → hasIgwRoute t = false →
      "subnet-c" ∉ (["subnet-a", "subnet-b"] : List String)) :=
  publicSubnets_mem_iff_effective_igw sampleInv ["subnet-a", "subnet-b"] (by rfl) "subnet-c"

/-- Claim C2: a subnet whose explicit lookup fails with an error that
does not satisfy the not-found test makes the whole classification
invocation abort: no list is ever returned, and — when every earlier
subnet classifies without throwing — the rejection carries exactly that
error. -/
theorem fatalErrorAborts (inv : Inventory) (pre post : List String) (s : String) (e : Thrown)
    (hsplit : inv.subnetIds = pre ++ s :: post)
    (hex : inv.explicitLookup s = .err e)
    (hnf : isNotFoundError e = false) :
    (∀ l, publicSubnets inv ≠ .ok l) ∧
    ((∀ x ∈ pre, ∃ b, classifySubnet inv x = .ok b) → publicSubnets inv = .error e) := by
  have hc : classifySubnet inv s = .error e := by
    unfold classifySubnet
    rw [hex]
    simp [hnf]
  constructor
  · intro l hl
    obtain ⟨_, hall⟩ := publicSubnetsLoop_ok inv inv.subnetIds [] l hl
    obtain ⟨b, hb⟩ := hall s (by rw [hsplit]; simp)
    rw [hc] at hb
    exact Except.noConfusion hb
  · intro hpre
    unfold publicSubnets
    rw [hsplit]
    exact publicSubnetsLoop_error inv pre post [] s e hpre hc

theorem fatalErrorAborts_witness :
    (∀ l, publicSubnets fatalInv ≠ .ok l) ∧ publicSubnets fatalInv = .error permErr :=
  ⟨(fatalErrorAborts fatalInv ["subnet-a"] [] "subnet-x" permErr rfl rfl (by decide)).1,
   (fatalErrorAborts fatalInv ["subnet-a"] [] "subnet-x" permErr rfl rfl (by decide)).2
     (by
       intro x hx
       simp only [List.mem_singleton] at hx
       subst hx
       exact ⟨true, by rfl⟩)⟩

/-- Claim C3: a subnet whose explicit lookup fails with the not-found
condition is classified through the VPC's main route table, by the very
same internet-gateway check `hasIgwRoute` as the explicit path, and (when
the whole classification succeeds) it appears in the result iff the main
table has an internet-gateway route. -/
theorem fallbackMainTable (inv : Inventory) (l : List String) (s : String)
    (e : Thrown) (t : RouteTable)
    (hok : publicSubnets inv = .ok l) (hs : s ∈ inv.subnetIds)
    (hex : inv.explicitLookup s = .err e) (hnf : isNotFoundError e = true)
    (hmain : inv.mainLookup = .ok t) :
    classifySubnet inv s = .ok (hasIgwRoute t) ∧ (s ∈ l ↔ hasIgwRoute t = true) := by
  have hc : classifySubnet inv s = .ok (hasIgwRoute t) := by
    unfold classifySubnet
    rw [hex]
    simp [hnf, hmain]
  refine ⟨hc, ?_⟩
  obtain ⟨h1, _⟩ := publicSubnetsLoop_ok inv inv.subnetIds [] l hok
  rw [List.nil_append] at h1
  rw [h1, List.mem_filter, isPublicSubnet_eq_of_ok inv s _ hc]
  simp [hs]

theorem fallbackMainTable_witness :
    classifySubnet sampleInv "subnet-b" = .ok (hasIgwRoute igwTable) ∧
      ("subnet-b" ∈ (["subnet-a", "subnet-b"] : List String) ↔
        hasIgwRoute igwTable = true) :=
  fallbackMainTable sampleInv ["subnet-a", "subnet-b"] "subnet-b" notFoundErr igwTable
    (by rfl) (by decide) (by rfl) (by decide) (by rfl)

/-- Claim C4: a successful classification result is a sublist
(order-preserving subsequence) of the subnet enumeration, whichever
lookup path each subnet took. -/
theorem resultIsSubsequence (inv : Inventory) (l : List String)
    (hok : publicSubnets inv = .ok l) : List.Sublist l inv.subnetIds := by
  obtain ⟨h1, _⟩ := publicSubnetsLoop_ok inv inv.subnetIds [] l hok
  rw [List.nil_append] at h1
  rw [h1]
  exact List.filter_sublist inv.subnetIds

theorem resultIsSubsequence_witness :
    List.Sublist ["subnet-a", "subnet-b"] sampleInv.subnetIds :=
  resultIsSubsequence sampleInv ["subnet-a", "subnet-b"] (by rfl)

/-- Claim C5: whenever the classifier's ordered result is non-empty, the
subnet identifier handed to the EC2 instance as its placement subnet is
exactly the first element of that result. -/
theorem instancePlacementIsFirstPublic (inv : Inventory) (s : String) (rest : List String)
    (hok : publicSubnets inv = .ok (s :: rest)) :
    sftpInstanceSubnetId inv = .ok (some s) := by
  unfold sftpInstanceSubnetId
  rw [hok]
  rfl

theorem instancePlacementIsFirstPublic_witness :
    sftpInstanceSubnetId sampleInv = .ok (some "subnet-a") :=
  instancePlacementIsFirstPublic sampleInv "subnet-a" ["subnet-b"] (by rfl)

/-- Claim C6: the recoverable condition is recognised purely textually:
when the explicit lookup throws, the fallback branch is taken exactly
when `isNotFoundError` holds of the thrown value, and for an `Error`
instance that test is nothing but containment of the fixed marker string
`"query returned no results"` in its message — no structured error kind
is consulted. -/
theorem notFoundDetectedByMessage (inv : Inventory) (s : String) (e : Thrown)
    (hex : inv.explicitLookup s = .err e) :
    (classifySubnet inv s =
      if isNotFoundError e then
        match inv.mainLookup with
        | .ok t => Except.ok (hasIgwRoute t)
        | .err e2 => Except.error e2
      else Except.error e) ∧
    (∀ msg, isNotFoundError (.errorObj msg) = containsSubstring msg notFoundMarker) ∧
    notFoundMarker = "query returned no results" := by
  refine ⟨?_, fun msg => rfl, rfl⟩
  unfold classifySubnet
  rw [hex]

theorem notFoundDetectedByMessage_witness :
    (classifySubnet sampleInv "subnet-b" =
      if isNotFoundError notFoundErr then
        match sampleInv.mainLookup with
        | .ok t => Except.ok (hasIgwRoute t)
        | .err e2 => Except.error e2
      else Except.error notFoundErr) ∧
    (∀ msg, isNotFoundError (.errorObj msg) = containsSubstring msg notFoundMarker) ∧
    notFoundMarker = "query returned no results" :=
  notFoundDetectedByMessage sampleInv "subnet-b" notFoundErr (by rfl)

/-- Claim C7: the two source variants are not equivalent — on
`divergingInv` the classifier of `src/unnamed/part_000` returns a
different list from the raw enumeration that `src/index.ts` uses; the
`src/index.ts` variant's placement subnet is always the head of the raw
enumeration; and when the enumeration is non-empty and classification
succeeds, the two variants pick the same placement value iff the first
enumerated subnet is public and is the first element of the classified
result. -/
theorem variantsNotEquivalent :
    (publicSubnets divergingInv ≠ .ok (publicSubnetsIndexTs divergingInv)) ∧
    (∀ inv : Inventory, sftpInstanceSubnetIdIndexTs inv = inv.subnetIds.head?) ∧
    (∀ (inv : Inventory) (s : String) (rest l : List String),
      inv.subnetIds = s :: rest → publicSubnets inv = .ok l →
      (sftpInstanceSubnetId inv = .ok (sftpInstanceSubnetIdIndexTs inv) ↔
        isPublicSubnet inv s = true ∧ l.head? = some s)) := by
  refine ⟨by decide, fun inv => rfl, ?_⟩
  intro inv s rest l hids hok
  obtain ⟨h1, _⟩ := publicSubnetsLoop_ok inv inv.subnetIds [] l hok
  rw [List.nil_append] at h1
  have hidx : sftpInstanceSubnetIdIndexTs inv = some s := by
    unfold sftpInstanceSubnetIdIndexTs publicSubnetsIndexTs
    rw [hids]
    rfl
  have hpl : sftpInstanceSubnetId inv = .ok l.head? := by
    unfold sftpInstanceSubnetId
    rw [hok]
    rfl
  rw [hpl, hidx]
  have hagree : (Except.ok (ε := Thrown) l.head? = Except.ok (some s)) ↔
      l.head? = some s := by simp
  rw [hagree]
  rw [hids, List.filter_cons] at h1
  cases hp : isPublicSubnet inv s with
  | true =>
    rw [hp] at h1
    simp only [if_pos rfl] at h1
    rw [h1]
    simp [hp]
  | false =>
    rw [hp] at h1
    simp only [Bool.false_eq_true, if_false] at h1
    rw [h1]
    simp only [hp, Bool.false_eq_true, false_and, iff_false]
    intro hh
    have hmem : s ∈ rest.filter (isPublicSubnet inv) := by
      cases hfp : rest.filter (isPublicSubnet inv) with
      | nil => rw [hfp] at hh; exact Option.noConfusion hh
      | cons y ys =>
        rw [hfp] at hh
        simp only [List.head?_cons, Option.some.injEq] at hh
        subst hh
        exact List.mem_cons_self y ys
    have := (List.mem_filter.mp hmem).2
    rw [hp] at this
    exact Bool.noConfusion this

theorem variantsNotEquivalent_witness :
    sftpInstanceSubnetId divergingInv = .ok (sftpInstanceSubnetIdIndexTs divergingInv) ↔
      isPublicSubnet divergingInv "subnet-priv" = true ∧
        (["subnet-pub"] : List String).head? = some "subnet-priv" :=
  variantsNotEquivalent.2.2 divergingInv "subnet-priv" ["subnet-pub"] ["subnet-pub"]
    rfl (by rfl)

/-- Claim C8: the fallback trigger is strictly narrower than "not
found": a thrown non-`Error` value propagates even when its text
contains the marker; a failure of the main-table fallback lookup itself
(a not-found one included) propagates; and a subnet whose classification
throws makes the whole invocation return no list at all. -/
theorem fallbackStrictlyNarrower (inv : Inventory) (s : String) :
    (∀ tag : String, inv.explicitLookup s = .err (.nonError tag) →
      classifySubnet inv s = .error (.nonError tag)) ∧
    (∀ e e2 : Thrown, inv.explicitLookup s = .err e → isNotFoundError e = true →
      inv.mainLookup = .err e2 → classifySubnet inv s = .error e2) ∧
    (∀ e : Thrown, s ∈ inv.subnetIds → classifySubnet inv s = .error e →
      ∀ l, publicSubnets inv ≠ .ok l) := by
  refine ⟨?_, ?_, ?_⟩
  · intro tag hex
    unfold classifySubnet
    rw [hex]
    rfl
  · intro e e2 hex hnf hmain
    unfold classifySubnet
    rw [hex]
    simp [hnf, hmain]
  · intro e hs hc l hl
    obtain ⟨_, hall⟩ := publicSubnetsLoop_ok inv inv.subnetIds [] l hl
    obtain ⟨b, hb⟩ := hall s hs
    rw [hc] at hb
    exact Except.noConfusion hb

theorem fallbackStrictlyNarrower_witness :
    classifySubnet hostileInv "subnet-a" = .error (.nonError "query returned no results") ∧
    classifySubnet hostileInv "subnet-b" = .error notFoundErr ∧
    ∀ l, publicSubnets hostileInv ≠ .ok l :=
  ⟨(fallbackStrictlyNarrower hostileInv "subnet-a").1 "query returned no results" (by rfl),
   (fallbackStrictlyNarrower hostileInv "subnet-b").2.1 notFoundErr notFoundErr
     (by rfl) (by decide) (by rfl),
   fun l =>
     (fallbackStrictlyNarrower hostileInv "subnet-a").2.2
       (.nonError "query returned no results") (by decide)
       ((fallbackStrictlyNarrower hostileInv "subnet-a").1
         "query returned no results" (by rfl)) l⟩

/-- Claim C9: classification is a deterministic function of the
inventory snapshot alone — two inventories that agree on the subnet
enumeration, on the explicit lookup at every enumerated subnet, and on
the main-table lookup yield identical results (the embedding is a pure
function of the snapshot, so no state survives between invocations). -/
theorem classificationDeterministic (inv1 inv2 : Inventory)
    (hids : inv1.subnetIds = inv2.subnetIds)
    (hex : ∀ s ∈ inv1.subnetIds, inv1.explicitLookup s = inv2.explicitLookup s)
    (hmain : inv1.mainLookup = inv2.mainLookup) :
    publicSubnets inv1 = publicSubnets inv2 := by
  unfold publicSubnets
  rw [← hids]
  exact publicSubnetsLoop_congr inv1 inv2 inv1.subnetIds []
    (fun s hs => classifySubnet_congr inv1 inv2 s (hex s hs) hmain)

theorem classificationDeterministic_witness :
    publicSubnets sampleInv = publicSubnets sampleInvPrimed :=
  classificationDeterministic sampleInv sampleInvPrimed rfl (by decide) rfl

/-- Claim C10: a VPC with an empty subnet enumeration classifies to the
empty sequence while issuing no route-table lookup at all (the traced
run's call list is empty; `publicSubnetsTraced_fst` ties the traced run
to `publicSubnets`). -/
theorem emptyEnumeration (inv : Inventory) (h : inv.subnetIds = []) :
    publicSubnetsTraced inv = (.ok [], []) ∧ publicSubnets inv = .ok [] := by
  unfold publicSubnetsTraced publicSubnets
  rw [h]
  exact ⟨rfl, rfl⟩

theorem emptyEnumeration_witness :
    publicSubnetsTraced emptyInv = (.ok [], []) ∧ publicSubnets emptyInv = .ok [] :=
  emptyEnumeration emptyInv rfl
